import Mathlib

/-!
Verification of the core of `hsa-expense-analyzer-cli` (`src/main.js`): the
filename parser `parseFileName` (lines 37-141), the directory aggregator
`getTotalsByYear` (lines 143-217), the summary-statistics calculator
`calculateSummaryStats` (lines 219-273) and the result formatter
`buildYearlyResultObject` (lines 275-320).

Modelling conventions.
* JavaScript strings are Lean `String`s; every string operation the source
  uses (`split`, `trim`, `startsWith`, `toLowerCase`, `includes`, the regular
  expressions) is implemented below by structural recursion on the character
  list, following ECMAScript semantics.
* JavaScript numbers are modelled as exact rationals `ℚ`.  Every amount the
  program accepts is an exact multiple of 1/100 and every arithmetic step is
  immediately re-rounded to 2 decimal places (`+(x).toFixed(2)`), so on the
  values actually produced the float pipeline computes these exact rationals.
  `Number.prototype.toFixed` is modelled as exact decimal rendering after
  half-up rounding, `parseFloat` as exact decimal parsing (it is only applied
  to strings already matching `/^\d+\.\d{2}$/`).
* JavaScript objects used as string-keyed dictionaries are modelled as
  insertion-ordered association lists over their own enumerable properties
  (prototype-chain quirks of keys such as "constructor" are out of scope).
-/

namespace Hsa

/-! ### Characters and digit strings -/

def digitVal (c : Char) : ℕ := c.toNat - 48

def digitChar (n : ℕ) : Char := Char.ofNat (48 + n)

/-- Numeric value of an all-digit string, most significant digit first
(model of JavaScript `Number(...)` restricted to all-digit strings). -/
def digitsToNat (l : List Char) : ℕ := l.foldl (fun n c => 10 * n + digitVal c) 0

/-- ASCII letter, as matched by `[a-zA-Z]`. -/
def isAsciiAlpha (c : Char) : Bool :=
  (decide ('a' ≤ c) && decide (c ≤ 'z')) || (decide ('A' ≤ c) && decide (c ≤ 'Z'))

/-! ### List-of-characters models of the JavaScript string operations -/

/-- The pattern occurs at the head of the list. -/
def headsWith : List Char → List Char → Bool
  | [], _ => true
  | _ :: _, [] => false
  | p :: ps, c :: cs => p == c && headsWith ps cs

/-- Model of `String.prototype.includes` for a non-empty pattern. -/
def containsSub (pat : List Char) : List Char → Bool
  | [] => headsWith pat []
  | c :: cs => headsWith pat (c :: cs) || containsSub pat cs

/-- Model of `String.prototype.split` with a single-character separator. -/
def splitOnChar (sep : Char) : List Char → List (List Char)
  | [] => [[]]
  | c :: cs =>
    if c == sep then [] :: splitOnChar sep cs
    else
      match splitOnChar sep cs with
      | s :: ss => (c :: s) :: ss
      | [] => [[c]]

/-- Model of `String.prototype.split` with the three-character separator
`" - "` (leftmost non-overlapping occurrences); `acc` holds the current
segment reversed. -/
def splitDashSepAux : List Char → List Char → List (List Char)
  | acc, [] => [acc.reverse]
  | acc, ' ' :: '-' :: ' ' :: rest => acc.reverse :: splitDashSepAux [] rest
  | acc, c :: cs => splitDashSepAux (c :: acc) cs

/-- Model of `fileName.split(' - ')` (main.js line 38). -/
def splitDashSep (l : List Char) : List (List Char) := splitDashSepAux [] l

/-- Model of `String.prototype.trim` (the source's file names only contain
the ASCII whitespace covered by `Char.isWhitespace`). -/
def jsTrim (l : List Char) : List Char :=
  ((l.dropWhile Char.isWhitespace).reverse.dropWhile Char.isWhitespace).reverse

/-! ### The regular expressions of `parseFileName` -/

/-- Model of the test `/^\d{4}-\d{2}-\d{2}$/` (main.js line 55). -/
def isDateFormat (l : List Char) : Bool :=
  match l with
  | [y1, y2, y3, y4, h1, m1, m2, h2, d1, d2] =>
    y1.isDigit && y2.isDigit && y3.isDigit && y4.isDigit && h1 == '-' &&
    m1.isDigit && m2.isDigit && h2 == '-' && d1.isDigit && d2.isDigit
  | _ => false

def isLeapYear (y : ℕ) : Bool := (y % 4 == 0 && y % 100 != 0) || y % 400 == 0

def daysInMonth (y m : ℕ) : ℕ :=
  if m == 2 then (if isLeapYear y then 29 else 28)
  else if m == 4 || m == 6 || m == 9 || m == 11 then 30 else 31

/-- Model of the calendar-validity check at main.js lines 66-76: ECMAScript
`new Date("yyyy-mm-ddT00:00:00")` round-trips through
`getFullYear`/`getMonth`/`getDate` exactly when the three components form a
real proleptic-Gregorian calendar date (month 1-12, day within the month). -/
def isRealDate (y m d : ℕ) : Bool :=
  decide (1 ≤ m) && decide (m ≤ 12) && decide (1 ≤ d) && decide (d ≤ daysInMonth y m)

/-- Model of the test `/\.[a-zA-Z]{2,5}$/` (main.js line 90): for some
k ∈ 2..5 the last k characters are ASCII letters preceded by a dot. -/
def hasExtension (l : List Char) : Bool :=
  let r := l.reverse
  [2, 3, 4, 5].any fun k => (r.take k).all isAsciiAlpha && r.get? k == some '.'

/-- Model of the test `/^\d+\.\d{2}$/` (main.js line 112). -/
def isAmountFormat (l : List Char) : Bool :=
  match splitOnChar '.' l with
  | [a, b] => !a.isEmpty && a.all Char.isDigit && b.length == 2 && b.all Char.isDigit
  | _ => false

/-- Model of `parseFloat` (main.js line 122) on the strings it is applied to
(they already match `/^\d+\.\d{2}$/`): the exact decimal value. -/
def parseDecimal (l : List Char) : ℚ :=
  match splitOnChar '.' l with
  | [a, b] => (digitsToNat a : ℚ) + (digitsToNat b : ℚ) / (10 : ℚ) ^ b.length
  | _ => 0

def reimbPat : List Char := ".reimbursed.".toList

/-- ECMAScript line terminators (not matched by `.` in a regex). -/
def isLineTerminator (c : Char) : Bool :=
  c == '\n' || c == '\r' || c == Char.ofNat 0x2028 || c == Char.ofNat 0x2029

/-- Model of `amountStr.replace(/\.reimbursed\..+$/, '')` (main.js line 105):
delete everything from the leftmost occurrence of ".reimbursed." that is
followed by at least one character, none of them a line terminator, to the
end of the string; if there is no such occurrence the string is unchanged. -/
def replaceReimb : List Char → List Char
  | [] => []
  | c :: cs =>
    if headsWith reimbPat (c :: cs) && !((c :: cs).drop 12).isEmpty
        && ((c :: cs).drop 12).all (fun ch => !isLineTerminator ch) then []
    else c :: replaceReimb cs

/-- Characters of `l` after its first '.', or `none` if it has no dot. -/
def afterFirstDot : List Char → Option (List Char)
  | [] => none
  | c :: cs => if c == '.' then some cs else afterFirstDot cs

/-- Model of `amountStr.replace(/\.[^.]+$/, '')` (main.js line 108): drop the
final ".ext" when the last '.' is followed by at least one character;
otherwise the string is unchanged. -/
def stripLastExt (l : List Char) : List Char :=
  match l.reverse with
  | [] => l
  | c :: rest =>
    if c == '.' then l
    else
      match afterFirstDot (c :: rest) with
      | some tail => tail.reverse
      | none => l

/-! ### The filename parser (main.js lines 37-141) -/

structure ParsedFileName where
  year : Option String
  description : Option String
  amount : ℚ
  isReimbursement : Bool
  isValid : Bool
  error : Option String
deriving DecidableEq, Repr

/-- Translation of `parseFileName` (main.js lines 37-141).  The defensive
`isNaN` check at lines 125-133 is unreachable (`parseFloat` of a string
matching `/^\d+\.\d{2}$/` is never `NaN`; the source marks the branch
`istanbul ignore`), so it has no counterpart here. -/
def parseFileName (fileName : String) : ParsedFileName :=
  let parts := splitDashSep fileName.toList
  if parts.length != 3 then
    { year := none, description := none, amount := 0, isReimbursement := false,
      isValid := false,
      error := some "File name should have format \"yyyy-mm-dd - description - $amount.ext\"" }
  else
    let date := parts.getD 0 []
    let description := parts.getD 1 []
    let amountPart := parts.getD 2 []
    if !isDateFormat date then
      { year := none, description := none, amount := 0, isReimbursement := false,
        isValid := false,
        error := some ("Date \"" ++ date.asString ++ "\" should be yyyy-mm-dd format") }
    else
      let comps := splitOnChar '-' date
      let yearNum := digitsToNat (comps.getD 0 [])
      let monthNum := digitsToNat (comps.getD 1 [])
      let dayNum := digitsToNat (comps.getD 2 [])
      if !isRealDate yearNum monthNum dayNum then
        { year := none, description := none, amount := 0, isReimbursement := false,
          isValid := false,
          error := some ("Date \"" ++ date.asString ++ "\" should be yyyy-mm-dd format") }
      else if amountPart.isEmpty || !headsWith "$".toList amountPart then
        { year := none, description := none, amount := 0, isReimbursement := false,
          isValid := false,
          error := some ("Amount \"" ++ amountPart.asString ++ "\" should start with $") }
      else if !hasExtension amountPart then
        { year := none, description := none, amount := 0, isReimbursement := false,
          isValid := false,
          error := some "File is missing extension (should end with .pdf, .jpg, etc.)" }
      else
        let amountStr0 := amountPart.drop 1
        let amountStr :=
          if containsSub reimbPat amountStr0 then replaceReimb amountStr0
          else stripLastExt amountStr0
        if !isAmountFormat amountStr then
          { year := none, description := none, amount := 0, isReimbursement := false,
            isValid := false,
            error := some ("Amount \"" ++ amountPart.asString ++
              "\" should be a valid format like $50.00") }
        else
          { year := some (comps.getD 0 []).asString,
            description := some description.asString,
            amount := parseDecimal amountStr,
            isReimbursement := containsSub reimbPat fileName.toList,
            isValid := true,
            error := none }

/-! ### The aggregation data model (main.js lines 143-217) -/

/-- One entry of `validReceipts` (main.js lines 177-184). -/
structure Receipt where
  date : String
  year : String
  description : String
  amount : ℚ
  isReimbursed : Bool
  category : String
deriving DecidableEq, Repr

/-- One value of `expensesByCategory[year]` (main.js line 196). -/
structure CatData where
  expenses : ℚ
  reimbursements : ℚ
  count : ℕ
deriving DecidableEq, Repr

/-- One entry of `invalidFiles` (main.js line 168). -/
structure InvalidFile where
  fileName : String
  error : String
deriving DecidableEq, Repr

/-- JavaScript objects used as string-keyed dictionaries: insertion-ordered
association lists over the own enumerable properties. -/
abbrev AList (α : Type) := List (String × α)

/-- Lookup `m[k]`: `undefined` is `none`. -/
def lookupA {α : Type} : AList α → String → Option α
  | [], _ => none
  | (k', v) :: rest, k => if k' = k then some v else lookupA rest k

/-- Assignment `m[k] = v`: overwrite the first binding of `k` in place, else append. -/
def updA {α : Type} : AList α → String → α → AList α
  | [], k, v => [(k, v)]
  | (k', v') :: rest, k, v => if k' = k then (k, v) :: rest else (k', v') :: updA rest k v

/-- The six accumulators of `getTotalsByYear` (main.js lines 144-149). -/
structure Totals where
  expensesByYear : AList ℚ
  reimbursementsByYear : AList ℚ
  receiptCounts : AList ℕ
  invalidFiles : List InvalidFile
  expensesByCategory : AList (AList CatData)
  validReceipts : List Receipt
deriving DecidableEq, Repr

def initTotals : Totals := ⟨[], [], [], [], [], []⟩

/-- Main.js line 173:
`(description.trim().split(' ')[0] || 'uncategorized').toLowerCase()`. -/
def categoryOf (description : String) : String :=
  let first := (splitOnChar ' ' (jsTrim description.toList)).getD 0 []
  ((if first.isEmpty then "uncategorized".toList else first).map Char.toLower).asString

/-- JavaScript truthiness of the number-or-undefined `expensesByYear[year]`
(main.js line 187): `undefined` and `0` are falsy. -/
def jsFalsyNum (o : Option ℚ) : Bool :=
  match o with
  | none => true
  | some v => v == 0

/-- Model of `+(x).toFixed(2)` (main.js lines 200-209): round to two decimal
places.  On the exact cent-valued rationals this program produces, the
JavaScript string round-trip computes exactly this. -/
def round2 (q : ℚ) : ℚ := (round (q * 100) : ℚ) / 100

/-- Main.js lines 186-192: on the first accepted receipt of a year (or if its
running total is 0, which JavaScript's truthiness test treats like absence)
all four per-year entries are initialized together. -/
def initYearEntries (t : Totals) (year : String) : Totals :=
  if jsFalsyNum (lookupA t.expensesByYear year) then
    { t with
      expensesByYear := updA t.expensesByYear year 0,
      reimbursementsByYear := updA t.reimbursementsByYear year 0,
      receiptCounts := updA t.receiptCounts year 0,
      expensesByCategory := updA t.expensesByCategory year [] }
  else t

/-- Main.js lines 194-197: initialize `expensesByCategory[year][category]`. -/
def initCategoryEntry (cats : AList CatData) (category : String) : AList CatData :=
  if (lookupA cats category).isNone then updA cats category ⟨0, 0, 0⟩ else cats

/-- Main.js lines 177-212: fold one accepted (valid, positive-amount)
receipt into the accumulators.  The `getD` defaults model JavaScript's
`undefined`; in every state this function is actually applied to, the
initialization at lines 186-197 guarantees the looked-up entries exist, so
the defaults are never taken on the reachable states of the fold. -/
def acceptReceipt (t : Totals) (year category : String) (receipt : Receipt)
    (amount : ℚ) (isReimb : Bool) : Totals :=
  let t1 := initYearEntries t year
  let cats1 := initCategoryEntry ((lookupA t1.expensesByCategory year).getD []) category
  -- lines 199-202: always count as an expense
  let eY2 := updA t1.expensesByYear year (round2 ((lookupA t1.expensesByYear year).getD 0 + amount))
  let cd := (lookupA cats1 category).getD ⟨0, 0, 0⟩
  let cd2 : CatData :=
    { cd with expenses := round2 (cd.expenses + amount), count := cd.count + 1 }
  -- lines 204-210: additionally track as reimbursement if applicable
  let cd3 : CatData :=
    if isReimb then { cd2 with reimbursements := round2 (cd2.reimbursements + amount) }
    else cd2
  let rY2 :=
    if isReimb then
      updA t1.reimbursementsByYear year
        (round2 ((lookupA t1.reimbursementsByYear year).getD 0 + amount))
    else t1.reimbursementsByYear
  let xY2 := updA t1.expensesByCategory year (updA cats1 category cd3)
  -- line 212
  let cY2 := updA t1.receiptCounts year ((lookupA t1.receiptCounts year).getD 0 + 1)
  { expensesByYear := eY2,
    reimbursementsByYear := rY2,
    receiptCounts := cY2,
    invalidFiles := t1.invalidFiles,
    expensesByCategory := xY2,
    validReceipts := t1.validReceipts ++ [receipt] }

/-- One iteration of the `for` loop of `getTotalsByYear`
(main.js lines 159-213). -/
def processFile (t : Totals) (fileName : String) : Totals :=
  if headsWith ".".toList fileName.toList then t
  else
    let p := parseFileName fileName
    if !p.isValid then
      { t with invalidFiles := t.invalidFiles ++ [⟨fileName, p.error.getD ""⟩] }
    else
      let category := categoryOf (p.description.getD "")
      if p.amount > 0 then
        let year := p.year.getD ""
        let receipt : Receipt :=
          { date := ((splitDashSep fileName.toList).getD 0 []).asString,
            year := year,
            description := p.description.getD "",
            amount := p.amount,
            isReimbursed := p.isReimbursement,
            category := category }
        acceptReceipt t year category receipt p.amount p.isReimbursement
      else t

/-- Translation of `getTotalsByYear` (main.js lines 143-217), taking as input
the directory listing `fs.readdirSync(directory)` returns.  (An unreadable
directory throws at line 156 before any aggregation; that fatal path is
outside this model.) -/
def getTotalsByYear (fileNames : List String) : Totals :=
  fileNames.foldl processFile initTotals

/-! ### Decimal rendering: the model of `Number.prototype.toFixed` -/

/-- Digits of `n`, most significant first, accumulated onto `acc`; the fuel
only bounds the recursion depth (`n` itself is always enough). -/
def natToDigitsAux : ℕ → ℕ → List Char → List Char
  | 0, _, acc => acc
  | fuel + 1, n, acc =>
    if n == 0 then acc else natToDigitsAux fuel (n / 10) (digitChar (n % 10) :: acc)

/-- Decimal rendering of a natural number (`"0"` for zero). -/
def natToDecimal (n : ℕ) : List Char :=
  if n == 0 then ['0'] else natToDigitsAux n n []

/-- Model of `x.toFixed(2)` on the exact rationals this program produces:
half-up rounding to an integer number of cents, then decimal rendering with
exactly two fraction digits. -/
def jsToFixed2 (q : ℚ) : String :=
  let n : ℤ := round (q * 100)
  let m : ℕ := n.natAbs
  ((if n < 0 then ['-'] else []) ++ natToDecimal (m / 100)
    ++ '.' :: [digitChar (m / 10 % 10), digitChar (m % 10)]).asString

/-- Model of `x.toFixed(1)`, used for the percentage fields. -/
def jsToFixed1 (q : ℚ) : String :=
  let n : ℤ := round (q * 10)
  let m : ℕ := n.natAbs
  ((if n < 0 then ['-'] else []) ++ natToDecimal (m / 10) ++ ['.', digitChar (m % 10)]).asString

/-! ### The summary-statistics calculator (main.js lines 219-273) -/

/-- The record `calculateSummaryStats` returns (main.js lines 255-272).  The
guarded percentage/average fields hold the JavaScript number `0` instead of a
`toFixed` string when their denominator guard fails; both render as `0`, and
they are modelled as the string `"0"` here.  `avgReceiptsPerYear` is
`Math.round(...)`, an integer. -/
structure SummaryStats where
  totalFiles : ℕ
  totalValidFiles : ℕ
  totalInvalidFiles : ℕ
  invalidFilePercentage : String
  totalExpenses : ℚ
  totalReimbursements : ℚ
  totalReimburseable : ℚ
  reimbursementRate : String
  reimburseableRate : String
  avgExpensePerYear : String
  avgReceiptsPerYear : ℤ
  mostExpensiveYear : Option String
  mostExpensiveYearAmount : ℚ
  mostExpensiveYearReceipts : ℕ
  expensePercentage : String
  receiptPercentage : String
deriving DecidableEq, Repr

/-- Translation of `calculateSummaryStats` (main.js lines 219-273).
`years.reduce(...)` with no initial value is a left fold whose accumulator
starts at the first element. -/
def calculateSummaryStats (years : List String) (expensesByYear reimbursementsByYear : AList ℚ)
    (receiptCounts : AList ℕ) (invalidFiles : List InvalidFile) : SummaryStats :=
  let totalValidFiles := (receiptCounts.map Prod.snd).sum
  let totalInvalidFiles := invalidFiles.length
  let totalFiles := totalValidFiles + totalInvalidFiles
  let totalExpenses := years.foldl (fun acc y => acc + (lookupA expensesByYear y).getD 0) 0
  let totalReimbursements :=
    years.foldl (fun acc y => acc + (lookupA reimbursementsByYear y).getD 0) 0
  let invalidFilePercentage :=
    if totalFiles > 0 then jsToFixed1 ((totalInvalidFiles : ℚ) / (totalFiles : ℚ) * 100) else "0"
  let avgExpensePerYear :=
    if years.length > 0 then jsToFixed2 (totalExpenses / (years.length : ℚ)) else "0"
  let avgReceiptsPerYear : ℤ :=
    if years.length > 0 then round ((totalValidFiles : ℚ) / (years.length : ℚ)) else 0
  let reimbursementRate :=
    if totalExpenses > 0 then jsToFixed1 (totalReimbursements / totalExpenses * 100) else "0"
  let totalReimburseable := totalExpenses - totalReimbursements
  let reimburseableRate :=
    if totalExpenses > 0 then jsToFixed1 (totalReimburseable / totalExpenses * 100) else "0"
  let mostExpensiveYear : Option String :=
    match years with
    | [] => none
    | y0 :: rest =>
      some (rest.foldl
        (fun maxYear year =>
          if (lookupA expensesByYear year).getD 0 > (lookupA expensesByYear maxYear).getD 0
          then year else maxYear) y0)
  let mostExpensiveYearReceipts : ℕ :=
    match mostExpensiveYear with
    | some y => (lookupA receiptCounts y).getD 0
    | none => 0
  let mostExpensiveYearAmount : ℚ :=
    match mostExpensiveYear with
    | some y => (lookupA expensesByYear y).getD 0
    | none => 0
  let expensePercentage :=
    if totalExpenses > 0 then jsToFixed1 (mostExpensiveYearAmount / totalExpenses * 100) else "0"
  let receiptPercentage :=
    if totalValidFiles > 0 then
      jsToFixed1 ((mostExpensiveYearReceipts : ℚ) / (totalValidFiles : ℚ) * 100)
    else "0"
  { totalFiles := totalFiles,
    totalValidFiles := totalValidFiles,
    totalInvalidFiles := totalInvalidFiles,
    invalidFilePercentage := invalidFilePercentage,
    totalExpenses := totalExpenses,
    totalReimbursements := totalReimbursements,
    totalReimburseable := totalReimburseable,
    reimbursementRate := reimbursementRate,
    reimburseableRate := reimburseableRate,
    avgExpensePerYear := avgExpensePerYear,
    avgReceiptsPerYear := avgReceiptsPerYear,
    mostExpensiveYear := mostExpensiveYear,
    mostExpensiveYearAmount := mostExpensiveYearAmount,
    mostExpensiveYearReceipts := mostExpensiveYearReceipts,
    expensePercentage := expensePercentage,
    receiptPercentage := receiptPercentage }

/-! ### The result formatter (main.js lines 275-320) -/

/-- A formatted per-category row (main.js lines 303-307). -/
structure CatRow where
  expenses : String
  reimbursements : String
  receipts : ℕ
deriving DecidableEq, Repr

/-- A formatted per-year row (main.js lines 290-294, 309). -/
structure ResultRow where
  expenses : String
  reimbursements : String
  receipts : ℕ
  byCategory : Option (AList CatRow)
deriving DecidableEq, Repr

/-- Main.js line 300: stable sort of the category entries by strictly
descending expenses (ECMAScript `Array.prototype.sort` is stable). -/
def sortByExpensesDesc (l : AList CatData) : AList CatData :=
  l.mergeSort fun a b => decide (b.2.expenses ≤ a.2.expenses)

/-- The body of the `for` loop of `buildYearlyResultObject` (main.js lines
281-311): add one year's formatted row and extend the three running totals. -/
def buildYearStep (expensesByYear reimbursementsByYear : AList ℚ) (receiptCounts : AList ℕ)
    (expensesByCategory : AList (AList CatData)) (acc : AList ResultRow × ℚ × ℚ × ℕ)
    (year : String) : AList ResultRow × ℚ × ℚ × ℕ :=
  let yearExpenses := (lookupA expensesByYear year).getD 0
  let yearReimbursements := (lookupA reimbursementsByYear year).getD 0
  let yearReceipts := (lookupA receiptCounts year).getD 0
  let byCategory : Option (AList CatRow) :=
    match lookupA expensesByCategory year with
    | some cats =>
      some ((sortByExpensesDesc cats).map fun e =>
        (e.1,
          { expenses := "$" ++ jsToFixed2 e.2.expenses,
            reimbursements := "$" ++ jsToFixed2 e.2.reimbursements,
            receipts := e.2.count }))
    | none => none
  (updA acc.1 year
      { expenses := "$" ++ jsToFixed2 yearExpenses,
        reimbursements := "$" ++ jsToFixed2 yearReimbursements,
        receipts := yearReceipts,
        byCategory := byCategory },
    acc.2.1 + yearExpenses, acc.2.2.1 + yearReimbursements, acc.2.2.2 + yearReceipts)

/-- Translation of `buildYearlyResultObject` (main.js lines 275-320); the
loop is a fold over `years` carrying the result object and the three running
totals. -/
def buildYearlyResultObject (years : List String) (expensesByYear reimbursementsByYear : AList ℚ)
    (receiptCounts : AList ℕ) (expensesByCategory : AList (AList CatData)) : AList ResultRow :=
  let folded := years.foldl
    (buildYearStep expensesByYear reimbursementsByYear receiptCounts expensesByCategory)
    ([], 0, 0, 0)
  updA folded.1 "Total"
    { expenses := "$" ++ jsToFixed2 folded.2.1,
      reimbursements := "$" ++ jsToFixed2 folded.2.2.1,
      receipts := folded.2.2.2,
      byCategory := none }

/-! ### The validation cascade as the specification states it (for C1) -/

/-- The record every failed parse carries (spec §4.1 / §3 ParsedFilename). -/
def parseError (msg : String) : ParsedFileName :=
  { year := none, description := none, amount := 0, isReimbursement := false,
    isValid := false, error := some msg }

/-- Spec §4.1 step 6: strip the leading `$`; if the token contains
".reimbursed." strip from there onward, otherwise strip the trailing
extension.  The result is the numeric string check 6 tests. -/
def specNumericPart (amountPart : List Char) : List Char :=
  let s := amountPart.drop 1
  if containsSub reimbPat s then replaceReimb s else stripLastExt s

/-- The parser as claim C1 states it: six checks in a fixed order, the
first failing check determines the error, and if every check passes the
result is valid.  This definition follows the claim's wording; `parseFileName`
above is the source translation. -/
def parseFileNameSpec (fileName : String) : ParsedFileName :=
  let parts := splitDashSep fileName.toList
  let date := parts.getD 0 []
  let amountPart := parts.getD 2 []
  -- check 1: exactly two " - " separators, i.e. three segments
  if parts.length != 3 then
    parseError "File name should have format \"yyyy-mm-dd - description - $amount.ext\""
  -- check 2: the date segment matches /^\d{4}-\d{2}-\d{2}$/
  else if !isDateFormat date then
    parseError ("Date \"" ++ date.asString ++ "\" should be yyyy-mm-dd format")
  -- check 3: the date is a real calendar date (round-trips its components)
  else if !isRealDate (digitsToNat ((splitOnChar '-' date).getD 0 []))
      (digitsToNat ((splitOnChar '-' date).getD 1 []))
      (digitsToNat ((splitOnChar '-' date).getD 2 [])) then
    parseError ("Date \"" ++ date.asString ++ "\" should be yyyy-mm-dd format")
  -- check 4: the amount token starts with '$'
  else if !headsWith "$".toList amountPart then
    parseError ("Amount \"" ++ amountPart.asString ++ "\" should start with $")
  -- check 5: the amount token ends with an extension /\.[A-Za-z]{2,5}$/
  else if !hasExtension amountPart then
    parseError "File is missing extension (should end with .pdf, .jpg, etc.)"
  -- check 6: the stripped numeric string matches /^\d+\.\d{2}$/
  else if !isAmountFormat (specNumericPart amountPart) then
    parseError ("Amount \"" ++ amountPart.asString ++ "\" should be a valid format like $50.00")
  else
    { year := some ((splitOnChar '-' date).getD 0 []).asString,
      description := some (parts.getD 1 []).asString,
      amount := parseDecimal (specNumericPart amountPart),
      isReimbursement := containsSub reimbPat fileName.toList,
      isValid := true,
      error := none }

/-! ### Exact cent values and rounding -/

/-- An exact integer number of cents. -/
def IsCent (q : ℚ) : Prop := ∃ n : ℤ, q = (n : ℚ) / 100

theorem isCent_zero : IsCent 0 := ⟨0, by norm_num⟩

theorem IsCent.add {a b : ℚ} (ha : IsCent a) (hb : IsCent b) : IsCent (a + b) := by
  obtain ⟨n, rfl⟩ := ha
  obtain ⟨m, rfl⟩ := hb
  exact ⟨n + m, by push_cast; ring⟩

/-- Rounding to two decimals is the identity on exact cent values. -/
theorem round2_eq_self {q : ℚ} (h : IsCent q) : round2 q = q := by
  obtain ⟨n, rfl⟩ := h
  unfold round2
  rw [div_mul_cancel₀ _ (by norm_num : (100 : ℚ) ≠ 0), round_intCast]

/-- The composite step of the source's accumulator updates. -/
theorem round2_add_eq {a b : ℚ} (ha : IsCent a) (hb : IsCent b) :
    round2 (a + b) = a + b := round2_eq_self (ha.add hb)

/-! ### Association-list lemmas -/

theorem lookupA_updA_self {α : Type} (m : AList α) (k : String) (v : α) :
    lookupA (updA m k v) k = some v := by
  induction m with
  | nil => simp [updA, lookupA]
  | cons hd tl ih =>
    by_cases h : hd.1 = k
    · simp [updA, lookupA, h]
    · simpa [updA, lookupA, h] using ih

theorem lookupA_updA_ne {α : Type} (m : AList α) {k k' : String} (v : α) (h : k' ≠ k) :
    lookupA (updA m k v) k' = lookupA m k' := by
  induction m with
  | nil => simp [updA, lookupA, Ne.symm h]
  | cons hd tl ih =>
    by_cases hh : hd.1 = k
    · simp [updA, lookupA, hh, Ne.symm h]
    · simp [updA, lookupA, hh, ih]

theorem updA_eq_append {α : Type} {m : AList α} {k : String} (v : α)
    (h : lookupA m k = none) : updA m k v = m ++ [(k, v)] := by
  induction m with
  | nil => simp [updA]
  | cons hd tl ih =>
    by_cases hh : hd.1 = k
    · simp [lookupA, hh] at h
    · simp only [lookupA, hh, if_false] at h
      simp [updA, hh, ih h]

theorem map_fst_updA {α : Type} {m : AList α} {k : String} (v : α)
    (h : lookupA m k ≠ none) : (updA m k v).map Prod.fst = m.map Prod.fst := by
  induction m with
  | nil => simp [lookupA] at h
  | cons hd tl ih =>
    by_cases hh : hd.1 = k
    · simp [updA, hh]
    · simp only [lookupA, hh, if_false] at h
      simp [updA, hh, ih h]

theorem lookupA_none_iff {α : Type} (m : AList α) (k : String) :
    lookupA m k = none ↔ k ∉ m.map Prod.fst := by
  induction m with
  | nil => simp [lookupA]
  | cons hd tl ih =>
    by_cases hh : hd.1 = k
    · simp [lookupA, hh]
    · simp [lookupA, hh, ih, Ne.symm hh]

theorem lookupA_append_of_none {α : Type} {m₁ : AList α} (m₂ : AList α) {k : String}
    (h : lookupA m₁ k = none) : lookupA (m₁ ++ m₂) k = lookupA m₂ k := by
  induction m₁ with
  | nil => simp
  | cons hd tl ih =>
    by_cases hh : hd.1 = k
    · simp [lookupA, hh] at h
    · simp only [lookupA, hh, if_false] at h
      simpa [lookupA, hh] using ih h

theorem lookupA_append_of_some {α : Type} {m₁ : AList α} (m₂ : AList α) {k : String} {v : α}
    (h : lookupA m₁ k = some v) : lookupA (m₁ ++ m₂) k = some v := by
  induction m₁ with
  | nil => simp [lookupA] at h
  | cons hd tl ih =>
    by_cases hh : hd.1 = k
    · simp only [lookupA, hh, if_true] at h
      rw [List.cons_append]
      simp [lookupA, hh, h]
    · simp only [lookupA, hh, if_false] at h
      rw [List.cons_append]
      simp only [lookupA, hh, if_false]
      exact ih h

theorem sum_snd_updA {m : AList ℚ} {k : String} {w : ℚ} (v : ℚ)
    (h : lookupA m k = some w) :
    ((updA m k v).map Prod.snd).sum = (m.map Prod.snd).sum - w + v := by
  induction m with
  | nil => simp [lookupA] at h
  | cons hd tl ih =>
    by_cases hh : hd.1 = k
    · simp only [lookupA, hh, if_true, Option.some_inj] at h
      subst h
      simp [updA, hh]
      ring
    · simp only [lookupA, hh, if_false] at h
      simp only [updA, hh, if_false, List.map_cons, List.sum_cons, ih h]
      ring

theorem mem_snd_updA {α : Type} {m : AList α} {k : String} {v q : α}
    (h : q ∈ (updA m k v).map Prod.snd) : q = v ∨ q ∈ m.map Prod.snd := by
  induction m with
  | nil => simpa [updA] using h
  | cons hd tl ih =>
    by_cases hh : hd.1 = k
    · simp only [updA, hh, if_true, List.map_cons, List.mem_cons] at h
      rcases h with h | h
      · exact Or.inl h
      · exact Or.inr (by simp [h])
    · simp only [updA, hh, if_false, List.map_cons, List.mem_cons] at h
      rcases h with h | h
      · exact Or.inr (by simp [h])
      · rcases ih h with h' | h'
        · exact Or.inl h'
        · exact Or.inr (by simp [h'])

theorem lookupA_mem_snd {α : Type} {m : AList α} {k : String} {v : α}
    (h : lookupA m k = some v) : v ∈ m.map Prod.snd := by
  induction m with
  | nil => simp [lookupA] at h
  | cons hd tl ih =>
    by_cases hh : hd.1 = k
    · simp only [lookupA, hh, if_true, Option.some_inj] at h
      simp [← h]
    · simp only [lookupA, hh, if_false] at h
      simp [ih h]

theorem lookupA_isSome_of_mem {α : Type} {m : AList α} {k : String}
    (h : k ∈ m.map Prod.fst) : ∃ v, lookupA m k = some v := by
  rcases ho : lookupA m k with _ | v
  · exact absurd h ((lookupA_none_iff m k).mp ho)
  · exact ⟨v, rfl⟩

theorem lookupA_append_single_ne {α : Type} (m : AList α) {k y : String} (v : α)
    (h : y ≠ k) : lookupA (m ++ [(k, v)]) y = lookupA m y := by
  rcases ho : lookupA m y with _ | w
  · rw [lookupA_append_of_none _ ho]
    simp [lookupA, Ne.symm h]
  · exact lookupA_append_of_some _ ho

/-! ### The amount of a valid parse is an exact number of cents -/

/-- A string matching `/^\d+\.\d{2}$/` parses to a nonnegative exact number
of cents. -/
theorem parseDecimal_cent {l : List Char} (h : isAmountFormat l = true) :
    ∃ n : ℕ, parseDecimal l = (n : ℚ) / 100 := by
  unfold isAmountFormat at h
  unfold parseDecimal
  rcases hs : splitOnChar '.' l with _ | ⟨a, _ | ⟨b, _ | ⟨c, rest⟩⟩⟩ <;> rw [hs] at h
  · simp at h
  · simp at h
  · simp only [Bool.and_eq_true, beq_iff_eq] at h
    obtain ⟨⟨⟨-, -⟩, hb⟩, -⟩ := h
    refine ⟨100 * digitsToNat a + digitsToNat b, ?_⟩
    show (digitsToNat a : ℚ) + (digitsToNat b : ℚ) / (10 : ℚ) ^ b.length = _
    rw [hb]
    push_cast
    field_simp
    ring
  · simp at h

/-- Every valid parse carries a nonnegative exact number of cents. -/
theorem parse_amount_cent (fileName : String)
    (h : (parseFileName fileName).isValid = true) :
    ∃ n : ℕ, (parseFileName fileName).amount = (n : ℚ) / 100 := by
  unfold parseFileName at h ⊢
  simp only at h ⊢
  split_ifs at h ⊢ <;>
    first
      | exact Bool.noConfusion h
      | exact parseDecimal_cent (by simp_all)

theorem IsCent.of_nat_div {q : ℚ} {n : ℕ} (h : q = (n : ℚ) / 100) : IsCent q :=
  ⟨(n : ℤ), by rw [h]; push_cast; ring⟩

theorem amount_nonneg_of_valid (fileName : String)
    (h : (parseFileName fileName).isValid = true) :
    0 ≤ (parseFileName fileName).amount := by
  obtain ⟨n, hn⟩ := parse_amount_cent fileName h
  rw [hn]
  positivity

/-! ### The inductive invariant of the aggregation fold -/

/-- Sum of the per-category expenses of one year's category map. -/
def catExpSum (cats : AList CatData) : ℚ := (cats.map fun e => e.2.expenses).sum

theorem catExpSum_updA {cats : AList CatData} {k : String} {w : CatData} (v : CatData)
    (h : lookupA cats k = some w) :
    catExpSum (updA cats k v) = catExpSum cats - w.expenses + v.expenses := by
  induction cats with
  | nil => simp [lookupA] at h
  | cons hd tl ih =>
    by_cases hh : hd.1 = k
    · simp only [lookupA, hh, if_true, Option.some_inj] at h
      subst h
      simp [updA, hh, catExpSum]
      ring
    · simp only [lookupA, hh, if_false] at h
      simp only [catExpSum, updA, hh, if_false, List.map_cons, List.sum_cons] at ih ⊢
      rw [ih h]
      ring

/-- The invariant every reachable accumulator state of `getTotalsByYear`
satisfies: the four per-year maps carry the same keys in the same order, the
yearly expense totals add up to the receipts, every stored money value is an
exact number of cents, each year's category expenses add up to its yearly
total, and a nonzero reimbursement total is backed by a reimbursed receipt. -/
structure StateInv (t : Totals) : Prop where
  keysR : t.reimbursementsByYear.map Prod.fst = t.expensesByYear.map Prod.fst
  keysC : t.receiptCounts.map Prod.fst = t.expensesByYear.map Prod.fst
  keysX : t.expensesByCategory.map Prod.fst = t.expensesByYear.map Prod.fst
  sumE : (t.expensesByYear.map Prod.snd).sum = (t.validReceipts.map Receipt.amount).sum
  centE : ∀ q ∈ t.expensesByYear.map Prod.snd, IsCent q
  centR : ∀ q ∈ t.reimbursementsByYear.map Prod.snd, IsCent q
  centX : ∀ y cats, lookupA t.expensesByCategory y = some cats →
    ∀ cd ∈ cats.map Prod.snd, IsCent cd.expenses ∧ IsCent cd.reimbursements
  catSum : ∀ y v, lookupA t.expensesByYear y = some v →
    ∃ cats, lookupA t.expensesByCategory y = some cats ∧ catExpSum cats = v
  reimbZero : ∀ y v, lookupA t.reimbursementsByYear y = some v → v ≠ 0 →
    ∃ rc ∈ t.validReceipts, rc.year = y ∧ rc.isReimbursed = true

theorem stateInv_init : StateInv initTotals := by
  constructor <;> simp [initTotals, lookupA, catExpSum]

theorem lookupA_single_self {α : Type} (k : String) (v : α) :
    lookupA [(k, v)] k = some v := by simp [lookupA]

theorem jsFalsyNum_false {o : Option ℚ} (h : jsFalsyNum o = false) :
    ∃ v, o = some v ∧ v ≠ 0 := by
  cases o with
  | none => simp [jsFalsyNum] at h
  | some v =>
    refine ⟨v, rfl, ?_⟩
    simpa [jsFalsyNum] using h

/-- After `initYearEntries` the invariant still holds and the year has an
expense entry. -/
theorem initYearEntries_inv (t : Totals) (year : String) (h : StateInv t) :
    StateInv (initYearEntries t year) ∧
      ∃ e₀, lookupA (initYearEntries t year).expensesByYear year = some e₀ := by
  unfold initYearEntries
  by_cases hf : jsFalsyNum (lookupA t.expensesByYear year) = true
  · rw [if_pos hf]
    rcases hn : lookupA t.expensesByYear year with _ | v
    · -- the year is absent from all four maps: the entries are appended
      have hnr : lookupA t.reimbursementsByYear year = none := by
        rw [lookupA_none_iff] at hn ⊢
        rw [h.keysR]; exact hn
      have hnc : lookupA t.receiptCounts year = none := by
        rw [lookupA_none_iff] at hn ⊢
        rw [h.keysC]; exact hn
      have hnx : lookupA t.expensesByCategory year = none := by
        rw [lookupA_none_iff] at hn ⊢
        rw [h.keysX]; exact hn
      rw [updA_eq_append _ hn, updA_eq_append _ hnr, updA_eq_append _ hnc, updA_eq_append _ hnx]
      constructor
      · constructor
        · simp [h.keysR]
        · simp [h.keysC]
        · simp [h.keysX]
        · simpa using h.sumE
        · intro q hq
          rcases (by simpa using hq : q ∈ t.expensesByYear.map Prod.snd ∨ q = 0) with hq' | hq'
          · exact h.centE q hq'
          · exact hq' ▸ isCent_zero
        · intro q hq
          rcases (by simpa using hq : q ∈ t.reimbursementsByYear.map Prod.snd ∨ q = 0) with hq' | hq'
          · exact h.centR q hq'
          · exact hq' ▸ isCent_zero
        · intro y cats hy cd hcd
          by_cases hyy : y = year
          · subst hyy
            rw [lookupA_append_of_none _ hnx] at hy
            simp only [lookupA_single_self, Option.some_inj] at hy
            subst hy
            simp at hcd
          · rw [lookupA_append_single_ne _ _ hyy] at hy
            exact h.centX y cats hy cd hcd
        · intro y v hy
          by_cases hyy : y = year
          · subst hyy
            rw [lookupA_append_of_none _ hn] at hy
            simp only [lookupA_single_self, Option.some_inj] at hy
            refine ⟨[], ?_, by simp [catExpSum, ← hy]⟩
            rw [lookupA_append_of_none _ hnx, lookupA_single_self]
          · rw [lookupA_append_single_ne _ _ hyy] at hy
            obtain ⟨cats, hc1, hc2⟩ := h.catSum y v hy
            exact ⟨cats, by rw [lookupA_append_single_ne _ _ hyy]; exact hc1, hc2⟩
        · intro y v hy hv
          by_cases hyy : y = year
          · subst hyy
            rw [lookupA_append_of_none _ hnr, lookupA_single_self] at hy
            simp only [Option.some_inj] at hy
            exact absurd hy.symm hv
          · rw [lookupA_append_single_ne _ _ hyy] at hy
            exact h.reimbZero y v hy hv
      · refine ⟨0, ?_⟩
        rw [lookupA_append_of_none _ hn, lookupA_single_self]
    · -- the year is present with running total 0: all four entries are reset
      have hv0 : v = 0 := by simpa [jsFalsyNum, hn] using hf
      subst hv0
      have hmem : year ∈ t.expensesByYear.map Prod.fst := by
        by_contra hmem
        rw [← lookupA_none_iff] at hmem
        rw [hmem] at hn
        exact Option.noConfusion hn
      obtain ⟨r₀, hr⟩ := lookupA_isSome_of_mem (m := t.reimbursementsByYear)
        (by rw [h.keysR]; exact hmem)
      obtain ⟨c₀, hcn⟩ := lookupA_isSome_of_mem (m := t.receiptCounts)
        (by rw [h.keysC]; exact hmem)
      obtain ⟨cats₀, hx⟩ := lookupA_isSome_of_mem (m := t.expensesByCategory)
        (by rw [h.keysX]; exact hmem)
      constructor
      · constructor
        · rw [map_fst_updA _ (by rw [hr]; exact fun hc => Option.noConfusion hc),
            map_fst_updA _ (by rw [hn]; exact fun hc => Option.noConfusion hc), h.keysR]
        · rw [map_fst_updA _ (by rw [hcn]; exact fun hc => Option.noConfusion hc),
            map_fst_updA _ (by rw [hn]; exact fun hc => Option.noConfusion hc), h.keysC]
        · rw [map_fst_updA _ (by rw [hx]; exact fun hc => Option.noConfusion hc),
            map_fst_updA _ (by rw [hn]; exact fun hc => Option.noConfusion hc), h.keysX]
        · rw [sum_snd_updA _ hn, h.sumE]
          ring
        · intro q hq
          rcases mem_snd_updA hq with hq' | hq'
          · exact hq' ▸ isCent_zero
          · exact h.centE q hq'
        · intro q hq
          rcases mem_snd_updA hq with hq' | hq'
          · exact hq' ▸ isCent_zero
          · exact h.centR q hq'
        · intro y cats hy cd hcd
          by_cases hyy : y = year
          · subst hyy
            rw [lookupA_updA_self] at hy
            simp only [Option.some_inj] at hy
            subst hy
            simp at hcd
          · rw [lookupA_updA_ne _ _ hyy] at hy
            exact h.centX y cats hy cd hcd
        · intro y v hy
          by_cases hyy : y = year
          · subst hyy
            rw [lookupA_updA_self] at hy
            simp only [Option.some_inj] at hy
            exact ⟨[], by rw [lookupA_updA_self], by simp [catExpSum, ← hy]⟩
          · rw [lookupA_updA_ne _ _ hyy] at hy
            obtain ⟨cats, hc1, hc2⟩ := h.catSum y v hy
            exact ⟨cats, by rw [lookupA_updA_ne _ _ hyy]; exact hc1, hc2⟩
        · intro y v hy hv
          by_cases hyy : y = year
          · subst hyy
            rw [lookupA_updA_self] at hy
            simp only [Option.some_inj] at hy
            exact absurd hy.symm hv
          · rw [lookupA_updA_ne _ _ hyy] at hy
            exact h.reimbZero y v hy hv
      · exact ⟨0, by rw [lookupA_updA_self]⟩
  · rw [if_neg hf]
    obtain ⟨v, hv, -⟩ := jsFalsyNum_false (by simpa using hf)
    exact ⟨h, v, hv⟩

theorem initCategoryEntry_lookup (cats : AList CatData) (category : String) :
    lookupA (initCategoryEntry cats category) category
      = some ((lookupA cats category).getD ⟨0, 0, 0⟩) := by
  unfold initCategoryEntry
  rcases hc : lookupA cats category with _ | v
  · simp [hc, lookupA_updA_self]
  · simp [hc]

theorem initCategoryEntry_sum (cats : AList CatData) (category : String) :
    catExpSum (initCategoryEntry cats category) = catExpSum cats := by
  unfold initCategoryEntry
  rcases hc : lookupA cats category with _ | v
  · simp only [Option.isNone_none, if_true, updA_eq_append _ hc]
    simp [catExpSum]
  · simp [hc]

theorem initCategoryEntry_mem {cats : AList CatData} {category : String} {cd : CatData}
    (h : cd ∈ (initCategoryEntry cats category).map Prod.snd) :
    cd = ⟨0, 0, 0⟩ ∨ cd ∈ cats.map Prod.snd := by
  unfold initCategoryEntry at h
  rcases hc : lookupA cats category with _ | v <;> rw [hc] at h
  · simp only [Option.isNone_none, if_true, updA_eq_append _ hc] at h
    rw [List.map_append] at h
    rcases List.mem_append.mp h with h' | h'
    · exact Or.inr h'
    · simp only [List.map_cons, List.map_nil, List.mem_singleton] at h'
      exact Or.inl h'
  · simp only [Option.isNone_some, Bool.false_eq_true, if_false] at h
    exact Or.inr h

/-- One accepted receipt preserves the invariant. -/
theorem acceptReceipt_inv (t : Totals) (year category : String) (receipt : Receipt)
    (amount : ℚ) (isReimb : Bool) (h : StateInv t) (hc : IsCent amount)
    (hry : receipt.year = year) (hrr : receipt.isReimbursed = isReimb)
    (hra : receipt.amount = amount) :
    StateInv (acceptReceipt t year category receipt amount isReimb) := by
  obtain ⟨h1, e₀, he⟩ := initYearEntries_inv t year h
  have hcE0 : IsCent e₀ := h1.centE _ (lookupA_mem_snd he)
  obtain ⟨cats₀, hx, hxsum⟩ := h1.catSum year e₀ he
  have hmem : year ∈ (initYearEntries t year).expensesByYear.map Prod.fst := by
    by_contra hmem
    rw [← lookupA_none_iff] at hmem
    rw [hmem] at he
    exact Option.noConfusion he
  obtain ⟨r₀, hr⟩ := lookupA_isSome_of_mem (m := (initYearEntries t year).reimbursementsByYear)
    (by rw [h1.keysR]; exact hmem)
  obtain ⟨c₀, hcnt⟩ := lookupA_isSome_of_mem (m := (initYearEntries t year).receiptCounts)
    (by rw [h1.keysC]; exact hmem)
  have hcR0 : IsCent r₀ := h1.centR _ (lookupA_mem_snd hr)
  have hcat1 := initCategoryEntry_lookup cats₀ category
  have hcdcent : IsCent ((lookupA cats₀ category).getD ⟨0, 0, 0⟩).expenses ∧
      IsCent ((lookupA cats₀ category).getD ⟨0, 0, 0⟩).reimbursements := by
    rcases hl : lookupA cats₀ category with _ | v
    · exact ⟨isCent_zero, isCent_zero⟩
    · simpa using h1.centX year cats₀ hx v (lookupA_mem_snd hl)
  simp only [acceptReceipt, he, hr, hcnt, hx, Option.getD_some, hcat1,
    round2_add_eq hcE0 hc, round2_add_eq hcdcent.1 hc]
  constructor
  case keysR =>
    cases isReimb <;>
      simp only [Bool.false_eq_true, if_false, if_true,
        map_fst_updA _ (by rw [he]; exact fun hh => Option.noConfusion hh),
        map_fst_updA _ (by rw [hr]; exact fun hh => Option.noConfusion hh), h1.keysR]
  case keysC =>
    simp only [map_fst_updA _ (by rw [he]; exact fun hh => Option.noConfusion hh),
      map_fst_updA _ (by rw [hcnt]; exact fun hh => Option.noConfusion hh), h1.keysC]
  case keysX =>
    simp only [map_fst_updA _ (by rw [he]; exact fun hh => Option.noConfusion hh),
      map_fst_updA _ (by rw [hx]; exact fun hh => Option.noConfusion hh), h1.keysX]
  case sumE =>
    rw [sum_snd_updA _ he]
    simp only [List.map_append, List.sum_append, List.map_cons, List.map_nil, List.sum_cons,
      List.sum_nil, h1.sumE, hra]
    ring
  case centE =>
    intro q hq
    rcases mem_snd_updA hq with hq' | hq'
    · exact hq' ▸ hcE0.add hc
    · exact h1.centE q hq'
  case centR =>
    intro q hq
    cases isReimb with
    | false => simpa using h1.centR q (by simpa using hq)
    | true =>
      simp only [if_true, round2_add_eq hcR0 hc] at hq
      rcases mem_snd_updA hq with hq' | hq'
      · exact hq' ▸ hcR0.add hc
      · exact h1.centR q hq'
  case centX =>
    intro y cats hy cd hcd
    by_cases hyy : y = year
    · subst hyy
      rw [lookupA_updA_self] at hy
      simp only [Option.some_inj] at hy
      subst hy
      rcases mem_snd_updA hcd with hcd' | hcd'
      · subst hcd'
        cases isReimb with
        | false =>
          simp only [Bool.false_eq_true, if_false]
          exact ⟨hcdcent.1.add hc, hcdcent.2⟩
        | true =>
          simp only [if_true]
          refine ⟨hcdcent.1.add hc, ?_⟩
          rw [round2_add_eq hcdcent.2 hc]
          exact hcdcent.2.add hc
      · rcases initCategoryEntry_mem hcd' with hz | hz
        · exact hz ▸ ⟨isCent_zero, isCent_zero⟩
        · exact h1.centX _ cats₀ hx cd hz
    · rw [lookupA_updA_ne _ _ hyy] at hy
      exact h1.centX y cats hy cd hcd
  case catSum =>
    intro y v hy
    by_cases hyy : y = year
    · subst hyy
      rw [lookupA_updA_self] at hy
      simp only [Option.some_inj] at hy
      refine ⟨updA (initCategoryEntry cats₀ category) category _, by rw [lookupA_updA_self], ?_⟩
      rw [catExpSum_updA _ hcat1, initCategoryEntry_sum, hxsum, ← hy]
      cases isReimb <;> simp <;> ring
    · rw [lookupA_updA_ne _ _ hyy] at hy
      obtain ⟨cats, hc1, hc2⟩ := h1.catSum y v hy
      exact ⟨cats, by rw [lookupA_updA_ne _ _ hyy]; exact hc1, hc2⟩
  case reimbZero =>
    intro y v hy hv
    cases isReimb with
    | false =>
      simp only [Bool.false_eq_true, if_false] at hy
      obtain ⟨rc, hrc1, hrc2, hrc3⟩ := h1.reimbZero y v hy hv
      exact ⟨rc, by simp [hrc1], hrc2, hrc3⟩
    | true =>
      by_cases hyy : y = year
      · subst hyy
        exact ⟨receipt, by simp, hry, hrr⟩
      · simp only [if_true] at hy
        rw [lookupA_updA_ne _ _ hyy] at hy
        obtain ⟨rc, hrc1, hrc2, hrc3⟩ := h1.reimbZero y v hy hv
        exact ⟨rc, by simp [hrc1], hrc2, hrc3⟩

/-- Each loop iteration preserves the invariant. -/
theorem stateInv_processFile (t : Totals) (fileName : String) (h : StateInv t) :
    StateInv (processFile t fileName) := by
  simp only [processFile]
  split_ifs with h1 h2 h3
  · exact h
  · exact ⟨h.keysR, h.keysC, h.keysX, h.sumE, h.centE, h.centR, h.centX, h.catSum, h.reimbZero⟩
  · refine acceptReceipt_inv _ _ _ _ _ _ h ?_ rfl rfl rfl
    obtain ⟨n, hn⟩ := parse_amount_cent fileName (by simpa using h2)
    exact IsCent.of_nat_div hn
  · exact h

theorem stateInv_foldl (l : List String) (t : Totals) (h : StateInv t) :
    StateInv (l.foldl processFile t) := by
  induction l generalizing t with
  | nil => exact h
  | cons f fs ih => exact ih _ (stateInv_processFile t f h)

/-- Every state `getTotalsByYear` returns satisfies the invariant. -/
theorem stateInv_getTotalsByYear (fileNames : List String) :
    StateInv (getTotalsByYear fileNames) :=
  stateInv_foldl _ _ stateInv_init

/-! ### Claims -/

/-- Claim C1: `parseFileName` applies its validation checks in the fixed order
(1) exactly two " - " separators giving three segments, (2) the date segment
matches `^\d{4}-\d{2}-\d{2}$`, (3) the date is a real calendar date that
round-trips through its components, (4) the amount token starts with `$`,
(5) the amount token ends with an extension matching `\.[A-Za-z]{2,5}$`,
(6) the stripped numeric string matches `^\d+\.\d{2}$` — the first failing
check determines the returned error and later checks are never reached, and
if every check passes the result has `isValid` true: the source parser
coincides with the spec-ordered cascade `parseFileNameSpec` on every input. -/
theorem claim_C1_validation_order (fileName : String) :
    parseFileName fileName = parseFileNameSpec fileName := by
  have hemp : ∀ l : List Char,
      (l.isEmpty || !headsWith "$".toList l) = !headsWith "$".toList l := by
    intro l; cases l <;> rfl
  simp only [parseFileName, parseFileNameSpec, specNumericPart, parseError, hemp]

/-- Claim C2: for every directory listing, the sum of all values of the
`expensesByYear` map returned by `getTotalsByYear` equals the sum of
`receipt.amount` over all receipts in the returned `validReceipts` list. -/
theorem claim_C2_sum_invariant (fileNames : List String) :
    ((getTotalsByYear fileNames).expensesByYear.map Prod.snd).sum
      = ((getTotalsByYear fileNames).validReceipts.map Receipt.amount).sum :=
  (stateInv_getTotalsByYear fileNames).sumE

/-- Claim C3: for every directory listing and every year present in the result
of `getTotalsByYear`, the per-category expenses of that year sum to
`expensesByYear[y]`. -/
theorem claim_C3_category_totals (fileNames : List String) (y : String) (v : ℚ)
    (h : lookupA (getTotalsByYear fileNames).expensesByYear y = some v) :
    ∃ cats, lookupA (getTotalsByYear fileNames).expensesByCategory y = some cats ∧
      catExpSum cats = v :=
  (stateInv_getTotalsByYear fileNames).catSum y v h

theorem claim_C3_witness :
    ∃ cats,
      lookupA (getTotalsByYear ["2021-01-01 - Josh doctor - $50.00.pdf"]).expensesByCategory
        "2021" = some cats ∧ catExpSum cats = 50 :=
  claim_C3_category_totals ["2021-01-01 - Josh doctor - $50.00.pdf"] "2021" 50
    (by with_unfolding_all rfl)

/-- Claim C9: whenever `parseFileName` returns a record with `isValid` false,
that record also has `year` null, `amount` 0 and `isReimbursement` false —
an invalid parse never carries partial date, amount or reimbursement data. -/
theorem claim_C9_invalid_no_partial_data (fileName : String)
    (h : (parseFileName fileName).isValid = false) :
    (parseFileName fileName).year = none ∧ (parseFileName fileName).amount = 0 ∧
      (parseFileName fileName).isReimbursement = false := by
  unfold parseFileName at h ⊢
  simp only at h ⊢
  split_ifs at h ⊢ <;> first | exact ⟨rfl, rfl, rfl⟩ | exact Bool.noConfusion h

theorem claim_C9_witness :
    (parseFileName "badname.pdf").year = none ∧ (parseFileName "badname.pdf").amount = 0 ∧
      (parseFileName "badname.pdf").isReimbursement = false :=
  claim_C9_invalid_no_partial_data "badname.pdf" (by decide)

/-- Claim C8: a directory entry whose filename parses as valid but whose
amount is not positive is silently dropped: the loop iteration leaves every
accumulator (including `invalidFiles`) unchanged, and deleting the entry
from the listing does not change `getTotalsByYear` at all — a third outcome
distinct from the valid-aggregated and invalid-logged paths. -/
theorem claim_C8_nonpositive_silently_dropped (t : Totals) (fileName : String)
    (hh : headsWith ".".toList fileName.toList = false)
    (hv : (parseFileName fileName).isValid = true)
    (ha : (parseFileName fileName).amount ≤ 0) :
    processFile t fileName = t ∧
      ∀ l1 l2 : List String, getTotalsByYear (l1 ++ fileName :: l2) = getTotalsByYear (l1 ++ l2) := by
  have hstep : ∀ s : Totals, processFile s fileName = s := by
    intro s
    simp only [processFile, hh, Bool.false_eq_true, if_false, hv, Bool.not_true]
    rw [if_neg (not_lt.mpr ha)]
  refine ⟨hstep t, fun l1 l2 => ?_⟩
  unfold getTotalsByYear
  rw [List.foldl_append, List.foldl_append, List.foldl_cons, hstep]

theorem claim_C8_witness :
    processFile initTotals "2021-01-01 - water bill - $0.00.pdf" = initTotals := by
  refine (claim_C8_nonpositive_silently_dropped initTotals
    "2021-01-01 - water bill - $0.00.pdf" (by decide) (by decide) ?_).1
  have h0 : (parseFileName "2021-01-01 - water bill - $0.00.pdf").amount = 0 := by
    with_unfolding_all rfl
  rw [h0]

/-- Claim C10: after `getTotalsByYear` returns, the four maps
`expensesByYear`, `reimbursementsByYear`, `receiptCounts` and
`expensesByCategory` carry exactly the same year keys (in the same order);
in particular `reimbursementsByYear[y]` exists with value 0 for any year of
the result whose accepted receipts contain no reimbursements. -/
theorem claim_C10_year_keys_aligned (fileNames : List String) :
    ((getTotalsByYear fileNames).reimbursementsByYear.map Prod.fst
        = (getTotalsByYear fileNames).expensesByYear.map Prod.fst ∧
      (getTotalsByYear fileNames).receiptCounts.map Prod.fst
        = (getTotalsByYear fileNames).expensesByYear.map Prod.fst ∧
      (getTotalsByYear fileNames).expensesByCategory.map Prod.fst
        = (getTotalsByYear fileNames).expensesByYear.map Prod.fst) ∧
    ∀ y v, lookupA (getTotalsByYear fileNames).expensesByYear y = some v →
      (∀ rc ∈ (getTotalsByYear fileNames).validReceipts, rc.year = y → rc.isReimbursed = false) →
      lookupA (getTotalsByYear fileNames).reimbursementsByYear y = some 0 := by
  have h := stateInv_getTotalsByYear fileNames
  refine ⟨⟨h.keysR, h.keysC, h.keysX⟩, fun y v hy hno => ?_⟩
  have hmem : y ∈ (getTotalsByYear fileNames).expensesByYear.map Prod.fst := by
    by_contra hmem
    rw [← lookupA_none_iff] at hmem
    rw [hmem] at hy
    exact Option.noConfusion hy
  obtain ⟨w, hw⟩ := lookupA_isSome_of_mem
    (m := (getTotalsByYear fileNames).reimbursementsByYear) (by rw [h.keysR]; exact hmem)
  by_cases hw0 : w = 0
  · rw [hw, hw0]
  · obtain ⟨rc, hrc1, hrc2, hrc3⟩ := h.reimbZero y w hw hw0
    exact absurd hrc3 (by simp [hno rc hrc1 hrc2])

theorem claim_C10_witness :
    lookupA (getTotalsByYear ["2021-01-01 - Josh doctor - $50.00.pdf"]).reimbursementsByYear
      "2021" = some 0 := by
  refine (claim_C10_year_keys_aligned ["2021-01-01 - Josh doctor - $50.00.pdf"]).2 "2021" 50
    ?_ ?_
  · with_unfolding_all rfl
  · have hv : (getTotalsByYear ["2021-01-01 - Josh doctor - $50.00.pdf"]).validReceipts
        = [{ date := "2021-01-01", year := "2021", description := "Josh doctor",
             amount := 50, isReimbursed := false, category := "josh" }] := by
      with_unfolding_all rfl
    rw [hv]
    intro rc hrc hy
    rw [List.mem_singleton] at hrc
    rw [hrc]

/-! ### C4: first-maximum selection -/

/-- A left fold with a strictly-greater test returns the first element of
`a :: rest` attaining the maximum value: every element is bounded by the
result, and the result splits the list with strictly smaller values before
it. -/
theorem foldl_max_first (val : String → ℚ) (rest : List String) (a : String) :
    (∀ z ∈ a :: rest,
      val z ≤ val (rest.foldl (fun m y => if val y > val m then y else m) a)) ∧
    ∃ l1 l2, a :: rest = l1 ++ (rest.foldl (fun m y => if val y > val m then y else m) a) :: l2 ∧
      ∀ z ∈ l1, val z < val (rest.foldl (fun m y => if val y > val m then y else m) a) := by
  induction rest generalizing a with
  | nil =>
    refine ⟨?_, [], [], rfl, by simp⟩
    simp
  | cons b bs ih =>
    rw [List.foldl_cons]
    by_cases hab : val b > val a
    · rw [if_pos hab]
      obtain ⟨hle, l1, l2, hdec, hlt⟩ := ih b
      have hbr : val b ≤ val (bs.foldl (fun m y => if val y > val m then y else m) b) :=
        hle b (List.mem_cons_self b bs)
      constructor
      · intro z hz
        rcases List.mem_cons.mp hz with hz' | hz'
        · exact hz' ▸ le_of_lt (lt_of_lt_of_le hab hbr)
        · exact hle z hz'
      · refine ⟨a :: l1, l2, by rw [List.cons_append, ← hdec], ?_⟩
        intro z hz
        rcases List.mem_cons.mp hz with hz' | hz'
        · exact hz' ▸ lt_of_lt_of_le hab hbr
        · exact hlt z hz'
    · rw [if_neg hab]
      obtain ⟨hle, l1, l2, hdec, hlt⟩ := ih a
      have har : val a ≤ val (bs.foldl (fun m y => if val y > val m then y else m) a) :=
        hle a (List.mem_cons_self a bs)
      constructor
      · intro z hz
        rcases List.mem_cons.mp hz with hz' | hz'
        · exact hz' ▸ har
        · rcases List.mem_cons.mp hz' with hz'' | hz''
          · exact hz'' ▸ le_trans (le_of_not_lt hab) har
          · exact hle z (List.mem_cons_of_mem a hz'')
      · cases l1 with
        | nil =>
          simp only [List.nil_append] at hdec
          obtain ⟨h1, h2⟩ := List.cons.inj hdec
          refine ⟨[], b :: bs, ?_, by simp⟩
          rw [List.nil_append, ← h1]
        | cons a' l1' =>
          simp only [List.cons_append] at hdec
          obtain ⟨h1, h2⟩ := List.cons.inj hdec
          subst h1
          refine ⟨a :: b :: l1', l2, ?_, ?_⟩
          · rw [List.cons_append, List.cons_append, ← h2]
          · intro z hz
            have hacase : val a < val (bs.foldl (fun m y => if val y > val m then y else m) a) :=
              hlt a (List.mem_cons_self a l1')
            rcases List.mem_cons.mp hz with hz' | hz'
            · exact hz' ▸ hacase
            · rcases List.mem_cons.mp hz' with hz'' | hz''
              · exact hz'' ▸ lt_of_le_of_lt (le_of_not_lt hab) hacase
              · exact hlt z (List.mem_cons_of_mem a hz'')

/-- Claim C4: `calculateSummaryStats` selects `mostExpensiveYear` by a left
fold replacing the current best only on a strictly greater `expensesByYear`
value, so it returns the first-encountered year attaining the maximum (ties
keep the earliest listed year), and it is `none` when `years` is empty. -/
theorem claim_C4_most_expensive_year (years : List String) (e r : AList ℚ)
    (c : AList ℕ) (inv : List InvalidFile) :
    (years = [] → (calculateSummaryStats years e r c inv).mostExpensiveYear = none) ∧
    (years ≠ [] →
      ∃ y, (calculateSummaryStats years e r c inv).mostExpensiveYear = some y ∧
        y ∈ years ∧
        (∀ z ∈ years, (lookupA e z).getD 0 ≤ (lookupA e y).getD 0) ∧
        ∃ l1 l2, years = l1 ++ y :: l2 ∧
          ∀ z ∈ l1, (lookupA e z).getD 0 < (lookupA e y).getD 0) := by
  constructor
  · rintro rfl
    rfl
  · intro hne
    obtain ⟨y0, rest, rfl⟩ := List.exists_cons_of_ne_nil hne
    obtain ⟨hle, l1, l2, hdec, hlt⟩ := foldl_max_first (fun z => (lookupA e z).getD 0) rest y0
    refine ⟨_, rfl, ?_, hle, l1, l2, hdec, hlt⟩
    rw [hdec]
    exact List.mem_append_right l1 (List.mem_cons_self _ _)

theorem claim_C4_witness :
    ∃ y,
      (calculateSummaryStats ["2020", "2021"] [("2020", 5), ("2021", 7)] [] []
        []).mostExpensiveYear = some y ∧
      y ∈ ["2020", "2021"] ∧
      (∀ z ∈ ["2020", "2021"],
        (lookupA [("2020", (5 : ℚ)), ("2021", 7)] z).getD 0
          ≤ (lookupA [("2020", (5 : ℚ)), ("2021", 7)] y).getD 0) ∧
      ∃ l1 l2, ["2020", "2021"] = l1 ++ y :: l2 ∧
        ∀ z ∈ l1,
          (lookupA [("2020", (5 : ℚ)), ("2021", 7)] z).getD 0
            < (lookupA [("2020", (5 : ℚ)), ("2021", 7)] y).getD 0 :=
  (claim_C4_most_expensive_year ["2020", "2021"] [("2020", 5), ("2021", 7)] [] [] []).2
    (by decide)

/-! ### C5: the Total row -/

/-- The three running totals of the formatter's fold accumulate exactly the
per-year sums. -/
theorem buildYearStep_totals (e r : AList ℚ) (c : AList ℕ)
    (cats : AList (AList CatData)) (years : List String) :
    ∀ acc : AList ResultRow × ℚ × ℚ × ℕ,
      (years.foldl (buildYearStep e r c cats) acc).2
        = (acc.2.1 + (years.map fun y => (lookupA e y).getD 0).sum,
           acc.2.2.1 + (years.map fun y => (lookupA r y).getD 0).sum,
           acc.2.2.2 + (years.map fun y => (lookupA c y).getD 0).sum) := by
  induction years with
  | nil => intro acc; simp
  | cons y ys ih =>
    intro acc
    rw [List.foldl_cons, ih]
    simp only [buildYearStep, List.map_cons, List.sum_cons, Prod.mk.injEq]
    exact ⟨by ring, by ring, by ring⟩

/-- Claim C5: `buildYearlyResultObject` always returns a `"Total"` row whose
expenses, reimbursements and receipts re-sum every listed year's values, and
that row never carries a `byCategory` key; in particular the spec's concrete
scenario holds. -/
theorem claim_C5_total_row (years : List String) (e r : AList ℚ) (c : AList ℕ)
    (cats : AList (AList CatData)) :
    (lookupA (buildYearlyResultObject years e r c cats) "Total" = some
      { expenses := "$" ++ jsToFixed2 ((years.map fun y => (lookupA e y).getD 0).sum),
        reimbursements := "$" ++ jsToFixed2 ((years.map fun y => (lookupA r y).getD 0).sum),
        receipts := (years.map fun y => (lookupA c y).getD 0).sum,
        byCategory := none }) ∧
    buildYearlyResultObject ["2021"] [("2021", 100.5)] [("2021", 50.25)] [("2021", 2)] []
      = [("2021",
          { expenses := "$100.50", reimbursements := "$50.25", receipts := 2,
            byCategory := none }),
         ("Total",
          { expenses := "$100.50", reimbursements := "$50.25", receipts := 2,
            byCategory := none })] := by
  constructor
  · simp only [buildYearlyResultObject, buildYearStep_totals e r c cats years ([], 0, 0, 0),
      zero_add]
    rw [lookupA_updA_self]
  · with_unfolding_all rfl

/-! ### C6: rounding after every addition -/

/-- Every money value stored in the accumulators is a fixed point of
`round2`. -/
def AllRounded (t : Totals) : Prop :=
  (∀ q ∈ t.expensesByYear.map Prod.snd, round2 q = q) ∧
  (∀ q ∈ t.reimbursementsByYear.map Prod.snd, round2 q = q) ∧
  (∀ y cats, lookupA t.expensesByCategory y = some cats →
    ∀ cd ∈ cats.map Prod.snd, round2 cd.expenses = cd.expenses ∧
      round2 cd.reimbursements = cd.reimbursements)

theorem allRounded_of_inv {t : Totals} (h : StateInv t) : AllRounded t := by
  refine ⟨fun q hq => round2_eq_self (h.centE q hq),
    fun q hq => round2_eq_self (h.centR q hq), fun y cats hy cd hcd => ?_⟩
  obtain ⟨h1, h2⟩ := h.centX y cats hy cd hcd
  exact ⟨round2_eq_self h1, round2_eq_self h2⟩

/-- The entries an accepted receipt touches hold exactly `round2` of the
post-initialization running total plus the amount: the rounding is applied
to each individual addition. -/
theorem acceptReceipt_lookups (t : Totals) (year category : String) (receipt : Receipt)
    (amount : ℚ) (isReimb : Bool) :
    lookupA (acceptReceipt t year category receipt amount isReimb).expensesByYear year
      = some (round2 ((lookupA (initYearEntries t year).expensesByYear year).getD 0 + amount)) ∧
    (isReimb = true →
      lookupA (acceptReceipt t year category receipt amount isReimb).reimbursementsByYear year
        = some (round2
            ((lookupA (initYearEntries t year).reimbursementsByYear year).getD 0 + amount))) ∧
    (isReimb = false →
      (acceptReceipt t year category receipt amount isReimb).reimbursementsByYear
        = (initYearEntries t year).reimbursementsByYear) ∧
    ∃ cats',
      lookupA (acceptReceipt t year category receipt amount isReimb).expensesByCategory year
        = some cats' ∧
      ∃ cd', lookupA cats' category = some cd' ∧
        cd'.expenses = round2
          (((lookupA (initCategoryEntry
              ((lookupA (initYearEntries t year).expensesByCategory year).getD []) category)
            category).getD ⟨0, 0, 0⟩).expenses + amount) ∧
        (isReimb = true → cd'.reimbursements = round2
          (((lookupA (initCategoryEntry
              ((lookupA (initYearEntries t year).expensesByCategory year).getD []) category)
            category).getD ⟨0, 0, 0⟩).reimbursements + amount)) ∧
        (isReimb = false → cd'.reimbursements =
          ((lookupA (initCategoryEntry
              ((lookupA (initYearEntries t year).expensesByCategory year).getD []) category)
            category).getD ⟨0, 0, 0⟩).reimbursements) := by
  simp only [acceptReceipt]
  refine ⟨lookupA_updA_self _ _ _, ?_, ?_, ?_⟩
  · intro hr
    subst hr
    simp only [if_true]
    exact lookupA_updA_self _ _ _
  · intro hr
    subst hr
    simp
  · refine ⟨_, lookupA_updA_self _ _ _, _, lookupA_updA_self _ _ _, ?_, ?_, ?_⟩
    · cases isReimb <;> simp
    · intro hr
      subst hr
      simp
    · intro hr
      subst hr
      simp

/-- Claim C6: in `getTotalsByYear`, every running sum — `expensesByYear[year]`,
`reimbursementsByYear[year]` and the per-category expenses and
reimbursements — is rounded to exactly two decimal places immediately after
every single addition during the fold (each updated entry equals `round2` of
the previous value plus the amount), not only once at the end; consequently
every money value stored in any result of the fold is a fixed point of
`round2`. -/
theorem claim_C6_rounded_after_every_addition (t : Totals) (fileName : String)
    (hh : headsWith ".".toList fileName.toList = false)
    (hv : (parseFileName fileName).isValid = true)
    (ha : 0 < (parseFileName fileName).amount) :
    (let p := parseFileName fileName
     let year := p.year.getD ""
     let category := categoryOf (p.description.getD "")
     let t1 := initYearEntries t year
     let cd := (lookupA (initCategoryEntry ((lookupA t1.expensesByCategory year).getD [])
        category) category).getD ⟨0, 0, 0⟩
     lookupA (processFile t fileName).expensesByYear year
        = some (round2 ((lookupA t1.expensesByYear year).getD 0 + p.amount)) ∧
     (p.isReimbursement = true →
        lookupA (processFile t fileName).reimbursementsByYear year
          = some (round2 ((lookupA t1.reimbursementsByYear year).getD 0 + p.amount))) ∧
     (p.isReimbursement = false →
        (processFile t fileName).reimbursementsByYear = t1.reimbursementsByYear) ∧
     ∃ cats', lookupA (processFile t fileName).expensesByCategory year = some cats' ∧
       ∃ cd', lookupA cats' category = some cd' ∧
         cd'.expenses = round2 (cd.expenses + p.amount) ∧
         (p.isReimbursement = true →
           cd'.reimbursements = round2 (cd.reimbursements + p.amount)) ∧
         (p.isReimbursement = false → cd'.reimbursements = cd.reimbursements)) ∧
    ∀ fileNames : List String, AllRounded (getTotalsByYear fileNames) := by
  have hstep : processFile t fileName
      = acceptReceipt t ((parseFileName fileName).year.getD "")
          (categoryOf ((parseFileName fileName).description.getD ""))
          { date := ((splitDashSep fileName.toList).getD 0 []).asString,
            year := (parseFileName fileName).year.getD "",
            description := (parseFileName fileName).description.getD "",
            amount := (parseFileName fileName).amount,
            isReimbursed := (parseFileName fileName).isReimbursement,
            category := categoryOf ((parseFileName fileName).description.getD "") }
          (parseFileName fileName).amount (parseFileName fileName).isReimbursement := by
    simp only [processFile, hh, Bool.false_eq_true, if_false, hv, Bool.not_true, if_pos ha]
  constructor
  · have h := acceptReceipt_lookups t ((parseFileName fileName).year.getD "")
      (categoryOf ((parseFileName fileName).description.getD ""))
      { date := ((splitDashSep fileName.toList).getD 0 []).asString,
        year := (parseFileName fileName).year.getD "",
        description := (parseFileName fileName).description.getD "",
        amount := (parseFileName fileName).amount,
        isReimbursed := (parseFileName fileName).isReimbursement,
        category := categoryOf ((parseFileName fileName).description.getD "") }
      (parseFileName fileName).amount (parseFileName fileName).isReimbursement
    rw [← hstep] at h
    exact h
  · exact fun fileNames => allRounded_of_inv (stateInv_getTotalsByYear fileNames)

theorem claim_C6_witness :
    (let p := parseFileName "2021-01-01 - Josh doctor - $50.00.reimbursed.pdf"
     let year := p.year.getD ""
     let category := categoryOf (p.description.getD "")
     let t1 := initYearEntries initTotals year
     let cd := (lookupA (initCategoryEntry ((lookupA t1.expensesByCategory year).getD [])
        category) category).getD ⟨0, 0, 0⟩
     lookupA (processFile initTotals
          "2021-01-01 - Josh doctor - $50.00.reimbursed.pdf").expensesByYear year
        = some (round2 ((lookupA t1.expensesByYear year).getD 0 + p.amount)) ∧
     (p.isReimbursement = true →
        lookupA (processFile initTotals
            "2021-01-01 - Josh doctor - $50.00.reimbursed.pdf").reimbursementsByYear year
          = some (round2 ((lookupA t1.reimbursementsByYear year).getD 0 + p.amount))) ∧
     (p.isReimbursement = false →
        (processFile initTotals
            "2021-01-01 - Josh doctor - $50.00.reimbursed.pdf").reimbursementsByYear
          = t1.reimbursementsByYear) ∧
     ∃ cats',
       lookupA (processFile initTotals
            "2021-01-01 - Josh doctor - $50.00.reimbursed.pdf").expensesByCategory year
          = some cats' ∧
       ∃ cd', lookupA cats' category = some cd' ∧
         cd'.expenses = round2 (cd.expenses + p.amount) ∧
         (p.isReimbursement = true →
           cd'.reimbursements = round2 (cd.reimbursements + p.amount)) ∧
         (p.isReimbursement = false → cd'.reimbursements = cd.reimbursements)) ∧
    ∀ fileNames : List String, AllRounded (getTotalsByYear fileNames) :=
  claim_C6_rounded_after_every_addition initTotals
    "2021-01-01 - Josh doctor - $50.00.reimbursed.pdf" (by decide) (by decide)
    (by
      have h50 : (parseFileName "2021-01-01 - Josh doctor - $50.00.reimbursed.pdf").amount
          = 50 := by with_unfolding_all rfl
      rw [h50]
      norm_num)

/-! ### C7: decimal rendering round-trips the numeric token -/

theorem isDigit_toNat {c : Char} (h : c.isDigit = true) :
    48 ≤ c.toNat ∧ c.toNat ≤ 57 := by
  simp only [Char.isDigit, Bool.and_eq_true, decide_eq_true_eq] at h
  exact ⟨h.1, h.2⟩

theorem digitChar_digitVal {c : Char} (h : c.isDigit = true) :
    digitChar (digitVal c) = c := by
  obtain ⟨h1, h2⟩ := isDigit_toNat h
  unfold digitChar digitVal
  rw [(by omega : 48 + (c.toNat - 48) = c.toNat), Char.ofNat_toNat]

theorem digitVal_lt {c : Char} (h : c.isDigit = true) : digitVal c < 10 := by
  obtain ⟨h1, h2⟩ := isDigit_toNat h
  unfold digitVal
  omega

theorem digitVal_ne_zero {c : Char} (h : c.isDigit = true) (h0 : c ≠ '0') :
    digitVal c ≠ 0 := by
  obtain ⟨h1, h2⟩ := isDigit_toNat h
  intro hv
  apply h0
  have : c.toNat = 48 := by unfold digitVal at hv; omega
  rw [← Char.ofNat_toNat c, this]

theorem splitOnChar_ne_nil (c : Char) (l : List Char) : splitOnChar c l ≠ [] := by
  induction l with
  | nil => simp [splitOnChar]
  | cons x xs ih =>
    by_cases hx : x == c
    · simp [splitOnChar, hx]
    · simp only [splitOnChar, hx, Bool.false_eq_true, if_false]
      rcases hs : splitOnChar c xs with _ | ⟨s1, ss⟩
      · exact absurd hs ih
      · simp

theorem splitOnChar_one {c : Char} {l b : List Char}
    (h : splitOnChar c l = [b]) : l = b := by
  induction l generalizing b with
  | nil =>
    simp only [splitOnChar] at h
    obtain ⟨h1, -⟩ := List.cons.inj h
    exact h1
  | cons x xs ih =>
    by_cases hx : x == c
    · rw [splitOnChar, if_pos hx] at h
      rcases hs : splitOnChar c xs with _ | ⟨s1, ss⟩
      · exact absurd hs (splitOnChar_ne_nil c xs)
      · rw [hs] at h
        exact absurd h (by simp)
    · rw [splitOnChar, if_neg hx] at h
      rcases hs : splitOnChar c xs with _ | ⟨s1, ss⟩
      · exact absurd hs (splitOnChar_ne_nil c xs)
      · rw [hs] at h
        obtain ⟨h1, h2⟩ := List.cons.inj h
        subst h2
        rw [← h1, ih hs]

theorem splitOnChar_two {c : Char} {l a b : List Char}
    (h : splitOnChar c l = [a, b]) : l = a ++ c :: b := by
  induction l generalizing a b with
  | nil => exact absurd h (by simp [splitOnChar])
  | cons x xs ih =>
    by_cases hx : x == c
    · rw [splitOnChar, if_pos hx] at h
      obtain ⟨h1, h2⟩ := List.cons.inj h
      subst h1
      rw [List.nil_append, (beq_iff_eq.mp hx : x = c), splitOnChar_one h2]
    · rw [splitOnChar, if_neg hx] at h
      rcases hs : splitOnChar c xs with _ | ⟨s1, ss⟩
      · exact absurd hs (splitOnChar_ne_nil c xs)
      · rw [hs] at h
        obtain ⟨h1, h2⟩ := List.cons.inj h
        subst h2
        rw [← h1, List.cons_append]
        congr 1
        exact ih hs

theorem digitsToNat_append (l : List Char) (c : Char) :
    digitsToNat (l ++ [c]) = 10 * digitsToNat l + digitVal c := by
  simp [digitsToNat, List.foldl_append]

theorem digitsToNat_eq_ofDigits (a : List Char) :
    digitsToNat a = Nat.ofDigits 10 ((a.map digitVal).reverse) := by
  induction a using List.reverseRecOn with
  | nil => simp [digitsToNat, Nat.ofDigits]
  | append_singleton l c ih =>
    rw [digitsToNat_append, ih]
    simp only [List.map_append, List.map_cons, List.map_nil, List.reverse_append,
      List.reverse_cons, List.reverse_nil, List.nil_append, List.cons_append,
      Nat.ofDigits_cons]
    ring

theorem natToDigitsAux_zero (fuel : ℕ) (acc : List Char) :
    natToDigitsAux fuel 0 acc = acc := by
  cases fuel <;> simp [natToDigitsAux]

theorem natToDigitsAux_spec : ∀ (fuel n : ℕ) (acc : List Char), n ≠ 0 → n ≤ fuel →
    natToDigitsAux fuel n acc = ((Nat.digits 10 n).map digitChar).reverse ++ acc := by
  intro fuel
  induction fuel with
  | zero => intro n acc h1 h2; omega
  | succ f ih =>
    intro n acc h1 h2
    rw [natToDigitsAux, if_neg (by simpa using h1)]
    have hdig := Nat.digits_def' (by norm_num : 1 < 10) (Nat.pos_of_ne_zero h1)
    by_cases h10 : n / 10 = 0
    · rw [h10, natToDigitsAux_zero, hdig, h10]
      simp
    · have hlt : n / 10 ≤ f := by
        have := Nat.div_lt_self (Nat.pos_of_ne_zero h1) (by norm_num : 1 < 10)
        omega
      rw [ih (n / 10) _ h10 hlt, hdig]
      simp

theorem natToDecimal_spec (n : ℕ) (h : n ≠ 0) :
    natToDecimal n = ((Nat.digits 10 n).map digitChar).reverse := by
  unfold natToDecimal
  rw [if_neg (by simpa using h), natToDigitsAux_spec n n [] h le_rfl, List.append_nil]

/-- Decimal rendering inverts decimal reading on digit strings without a
superfluous leading zero. -/
theorem natToDecimal_digitsToNat (a : List Char) (hne : a ≠ [])
    (hd : a.all Char.isDigit = true) (hz : a = ['0'] ∨ a.headD '0' ≠ '0') :
    natToDecimal (digitsToNat a) = a := by
  rcases hz with hz | hz
  · subst hz
    decide
  · have hvals : ∀ c ∈ a, c.isDigit = true := by simpa [List.all_eq_true] using hd
    obtain ⟨c, a', rfl⟩ := List.exists_cons_of_ne_nil hne
    have hc0 : c ≠ '0' := by simpa using hz
    have hlast : ∀ hh : ((c :: a').map digitVal).reverse ≠ [],
        (((c :: a').map digitVal).reverse).getLast hh ≠ 0 := by
      intro hh
      have heq : ((c :: a').map digitVal).reverse
          = (a'.map digitVal).reverse ++ [digitVal c] := by simp
      have h1 : (((c :: a').map digitVal).reverse).getLast? = some (digitVal c) := by
        rw [heq]
        exact List.getLast?_concat _
      rw [List.getLast?_eq_getLast _ hh, Option.some_inj] at h1
      rw [h1]
      exact digitVal_ne_zero (hvals c (List.mem_cons_self c a')) hc0
    have hlt : ∀ d ∈ ((c :: a').map digitVal).reverse, d < 10 := by
      intro d hd'
      rw [List.mem_reverse, List.mem_map] at hd'
      obtain ⟨x, hx, rfl⟩ := hd'
      exact digitVal_lt (hvals x hx)
    have key := Nat.digits_ofDigits 10 (by norm_num) _ hlt hlast
    rw [digitsToNat_eq_ofDigits]
    have hn0 : Nat.ofDigits 10 (((c :: a').map digitVal).reverse) ≠ 0 := by
      intro h0
      rw [h0, Nat.digits_zero] at key
      exact absurd key.symm (by simp)
    rw [natToDecimal_spec _ hn0, key, List.map_reverse, List.reverse_reverse,
      List.map_map]
    rw [List.map_congr_left fun x hx => ?_, List.map_id]
    exact digitChar_digitVal (hvals x hx)

/-- Rendering `toFixed(2)` of an exact nonnegative cent value `n/100` renders the
integer part and the two fraction digits of `n`. -/
theorem jsToFixed2_cents (n : ℕ) :
    jsToFixed2 ((n : ℚ) / 100)
      = (natToDecimal (n / 100) ++ '.' :: [digitChar (n / 10 % 10), digitChar (n % 10)]).asString := by
  unfold jsToFixed2
  have h1 : ((n : ℚ) / 100) * 100 = (n : ℚ) := by field_simp
  rw [h1, round_natCast]
  simp [Int.natAbs_ofNat]

def noLeadingZero (a : List Char) : Bool := a == ['0'] || a.headD '0' != '0'

theorem parseDecimal_eq {s a b : List Char} (hs : splitOnChar '.' s = [a, b])
    (hb : b.length = 2) :
    parseDecimal s = ((100 * digitsToNat a + digitsToNat b : ℕ) : ℚ) / 100 := by
  unfold parseDecimal
  rw [hs]
  show (digitsToNat a : ℚ) + (digitsToNat b : ℚ) / (10 : ℚ) ^ b.length = _
  rw [hb]
  push_cast
  field_simp
  ring

/-- Claim C7, counterexample: the numeric part `"050.00"` matches
`^\d+\.\d{2}$`, but re-rendering its parsed amount as `"$" + toFixed(2)`
gives `"$50.00"`, not the original `"$050.00"`: the claim as stated fails. -/
theorem claim_C7_counterexample :
    isAmountFormat "050.00".toList = true ∧
      "$" ++ jsToFixed2 (parseDecimal "050.00".toList)
        ≠ "$" ++ ("050.00".toList).asString := by
  constructor
  · decide
  · have h : jsToFixed2 (parseDecimal "050.00".toList) = "50.00" := by
      with_unfolding_all rfl
    rw [h]
    decide

/-- Claim C7, amended: for every amount token whose numeric part matches
`^\d+\.\d{2}$` *and carries no superfluous leading zero* (its integer part
is literally `"0"` or starts with a nonzero digit), re-rendering the parsed
amount as `"$" + amount.toFixed(2)` reproduces the original `"$" + numeric`
string exactly.  (Without the leading-zero proviso the claim fails, see the
counterexample.) -/
theorem claim_C7_roundtrip_amended (s : List Char) (hf : isAmountFormat s = true)
    (hz : noLeadingZero ((splitOnChar '.' s).getD 0 []) = true) :
    "$" ++ jsToFixed2 (parseDecimal s) = "$" ++ s.asString := by
  unfold isAmountFormat at hf
  rcases hs : splitOnChar '.' s with _ | ⟨a, _ | ⟨b, _ | ⟨c, rest⟩⟩⟩ <;> rw [hs] at hf
  · simp at hf
  · simp at hf
  · simp only [Bool.and_eq_true, beq_iff_eq, Bool.not_eq_true'] at hf
    obtain ⟨⟨⟨ha0, had⟩, hb2⟩, hbd⟩ := hf
    obtain ⟨d1, d2, rfl⟩ := List.length_eq_two.mp hb2
    have hane : a ≠ [] := by simpa [List.isEmpty_iff] using ha0
    rw [hs] at hz
    simp only [List.getD_cons_zero] at hz
    have hzor : a = ['0'] ∨ a.headD '0' ≠ '0' := by
      rcases Bool.or_eq_true _ _ |>.mp hz with h | h
      · exact Or.inl (by simpa using h)
      · exact Or.inr (by simpa using h)
    have hrec := splitOnChar_two hs
    have hd1 : d1.isDigit = true := by
      have := hbd
      simp only [List.all_cons, List.all_nil, Bool.and_eq_true] at this
      exact this.1
    have hd2 : d2.isDigit = true := by
      have := hbd
      simp only [List.all_cons, List.all_nil, Bool.and_eq_true] at this
      exact this.2.1
    have hv1 := digitVal_lt hd1
    have hv2 := digitVal_lt hd2
    have hB : digitsToNat [d1, d2] = 10 * digitVal d1 + digitVal d2 := by
      simp [digitsToNat]
    rw [parseDecimal_eq hs rfl, jsToFixed2_cents]
    set A := digitsToNat a with hA
    have e1 : (100 * A + digitsToNat [d1, d2]) / 100 = A := by rw [hB]; omega
    have e2 : (100 * A + digitsToNat [d1, d2]) / 10 % 10 = digitVal d1 := by rw [hB]; omega
    have e3 : (100 * A + digitsToNat [d1, d2]) % 10 = digitVal d2 := by rw [hB]; omega
    rw [e1, e2, e3, natToDecimal_digitsToNat a hane had hzor,
      digitChar_digitVal hd1, digitChar_digitVal hd2, hrec]
  · simp at hf

theorem claim_C7_witness :
    "$" ++ jsToFixed2 (parseDecimal "50.00".toList) = "$" ++ ("50.00".toList).asString :=
  claim_C7_roundtrip_amended "50.00".toList (by decide) (by decide)

end Hsa
